import Mathlib

/-!
Verification of the n_music playback core against its specification.

The Rust sources embedded here:
- `src/n_player/src/bus_server/mod.rs` — the Change-Diff Broadcaster loop (`run`);
- `src/n_player/src/bus_server/linux.rs` — the MPRIS media bridge
  (`properties_changed`, `playback_status`, `metadata`);
- `src/n_player/src/app.rs` — the egui application (`slider_seek`, the
  previous/toggle/next button handlers, `init`, `save`, `on_exit`).

Floating-point values (`f64`/`f32`) are modelled as rationals `ℚ`: every claim
here only needs exact comparison and field arithmetic on finite values, never
rounding behaviour.  Rust panics (`expect`/`unwrap`, out-of-bounds indexing)
are modelled by `Option`-valued results, `none` meaning the thread panics.

Code of this repository that is not under `src/` (the `n_audio` engine crate,
`crate::runner`, and small helpers from the crate root such as `vec_contains`
and `remove_ext`) is modelled from the spec; each such definition carries a
doc comment starting with `Modelled from the spec:`.
-/

namespace NMusic

/-- A snapshot of the three Runner fields the Change-Diff Broadcaster
observes each tick (`guard.playback()`, `guard.volume()`, `guard.index()`). -/
structure RunnerSnapshot where
  playback : Bool
  volume : ℚ
  index : Nat
deriving DecidableEq, Repr

/-- `bus_server::Metadata` from `bus_server/mod.rs`. -/
structure BusMetadata where
  title : Option String
  artists : Option (List String)
  length : Nat
  id : String
  image_path : Option String
deriving DecidableEq, Repr

/-- `bus_server::Property` from `bus_server/mod.rs`. -/
inductive BusProperty where
  | Playing (b : Bool)
  | Metadata (m : BusMetadata)
  | Volume (v : ℚ)
deriving DecidableEq, Repr

/-- Modelled from the spec: `n_audio::remove_ext` derives a track's display
name as the "file name (or derived name without extension)" — the extension
after the final dot is dropped. -/
def removeExt (s : String) : String :=
  let parts := s.splitOn "."
  if parts.length ≤ 1 then s else String.intercalate "." parts.dropLast

/-- The per-track metadata the engine's `get_meta` returns (title, artist,
`time.len_secs`), as consumed by `bus_server/mod.rs` lines 84-98. -/
structure TrackMeta where
  title : String
  artist : String
  len_secs : Nat
deriving DecidableEq, Repr

/-- The `Metadata` property staged for an index change,
`bus_server/mod.rs` lines 84-98: title falls back to the file name without
extension when the decoded title is empty, the artist list is omitted when
the decoded artist is empty, length is `meta.time.len_secs`. -/
def stageMetadata (track_name : String) (meta : TrackMeta)
    (image_path : Option String) : BusMetadata :=
  { id := "/n_music"
    title := some (if meta.title ≠ "" then meta.title else removeExt track_name)
    artists := if meta.artist = "" then none else some [meta.artist]
    length := meta.len_secs
    image_path := image_path }

/-- The Broadcaster's loop-local state in `bus_server::run`
(`bus_server/mod.rs` lines 44-47): the staged `properties` vector and the
previously observed `playback`, `volume`, `index`. -/
structure BroadcasterState where
  playback : Bool
  volume : ℚ
  index : Nat
  properties : List BusProperty
deriving DecidableEq, Repr

/-- The Broadcaster's state before the first tick
(`bus_server/mod.rs` lines 44-47): `properties = vec![]`,
`playback = false`, `volume = 1.0`, and `index` read from the Runner before
the loop starts. -/
def initState (runnerIndex : Nat) : BroadcasterState :=
  { playback := false, volume := 1, index := runnerIndex, properties := [] }

/-- One iteration of the Change-Diff Broadcaster loop
(`bus_server/mod.rs` lines 51-107).

Parameters abstract the loop's captured environment: `queue` is the track
list read once before the loop; `fetch` is `MusicTrack::new` + `get_meta`
for a track name (an `Except` error is the `Result::Err` that the loop's
`.expect` turns into a panic); `image` is the album-art extraction plus
scratch-file write, returning the scratch path or `none` for empty art.

Returns `none` when the iteration panics (failed `expect` or out-of-bounds
`queue[index]`), otherwise the updated loop state and the batch emitted this
tick (`none` when `properties` stayed empty and nothing was sent). -/
def tick (queue : List String) (fetch : String → Except String TrackMeta)
    (image : String → Option String)
    (st : BroadcasterState) (guard : RunnerSnapshot) :
    Option (BroadcasterState × Option (List BusProperty)) :=
  let st1 : BroadcasterState :=
    if st.playback ≠ guard.playback then
      { st with playback := guard.playback
                properties := st.properties ++ [.Playing guard.playback] }
    else st
  let st2 : BroadcasterState :=
    if st1.volume ≠ guard.volume then
      { st1 with volume := guard.volume
                 properties := st1.properties ++ [.Volume guard.volume] }
    else st1
  let st3? : Option BroadcasterState :=
    if st2.index ≠ guard.index then
      match queue[guard.index]? with
      | none => none
      | some track_name =>
        match fetch track_name with
        | .error _ => none
        | .ok meta =>
          some { st2 with
                 index := guard.index
                 properties := st2.properties ++
                   [.Metadata (stageMetadata track_name meta (image track_name))] }
    else some st2
  match st3? with
  | none => none
  | some st3 =>
    if st3.properties.isEmpty then some (st3, none)
    else some ({ st3 with properties := [] }, some st3.properties)

/-- MPRIS playback status values from the `mpris_server` crate. -/
inductive MprisStatus where
  | Playing
  | Paused
  | Stopped
deriving DecidableEq, Repr

/-- The status mapping inside `properties_changed`
(`bus_server/linux.rs` lines 27-31) and `MPRISBridge::playback_status`
(`bus_server/linux.rs` lines 172-179): the boolean playback flag maps to
`Playing` when true, `Paused` when false. -/
def playbackStatusOf (playing : Bool) : MprisStatus :=
  if playing then .Playing else .Paused

/-- The outward MPRIS property a `bus_server::Property` maps to in
`properties_changed` (`bus_server/linux.rs` lines 26-44). -/
inductive MprisProperty where
  | PlaybackStatus (s : MprisStatus)
  | Metadata (m : BusMetadata)
  | Volume (v : ℚ)
deriving DecidableEq, Repr

/-- The mapping applied to each batched property in
`Server::properties_changed` (`bus_server/linux.rs` lines 26-44). -/
def toMprisProperty : BusProperty → MprisProperty
  | .Playing playing => .PlaybackStatus (playbackStatusOf playing)
  | .Metadata m => .Metadata m
  | .Volume v => .Volume v

/-- Whether an outward MPRIS property announces the `Stopped` status. -/
def reportsStopped : MprisProperty → Bool
  | .PlaybackStatus .Stopped => true
  | _ => false

/-- The index-bounds guard in `MPRISBridge::metadata`
(`bus_server/linux.rs` lines 209-211): `if index > queue.len() { index = 0; }`,
returning the index subsequently used for `queue[index]`. -/
def metadataGuardIndex (index : Nat) (queueLen : Nat) : Nat :=
  if index > queueLen then 0 else index

/-- `n_audio::TrackTime` as used by `app.rs`: elapsed time
(`ts_secs` whole seconds + `ts_frac`) and duration
(`dur_secs` whole seconds + `dur_frac`). -/
structure TrackTime where
  ts_secs : Nat
  ts_frac : ℚ
  dur_secs : Nat
  dur_frac : ℚ
deriving DecidableEq, Repr

/-- The Playback Engine operations `app.rs` invokes on the
`QueuePlayer`, recorded as a call trace (the engine itself is outside
`src/`; spec §4.5 lists its contract). -/
inductive EngineCall where
  | pause
  | unpause
  | seekTo (secs : Nat) (frac : ℚ)
  | endCurrent
  | playNext
  | playPrevious
  | play (i : Nat)
deriving DecidableEq, Repr

/-- Modelled from the spec: the engine's paused flag — `pause` sets it,
`unpause` clears it, no other call touches it (§4.5 "pause / unpause",
"query current playing/paused/has-ended flags"). -/
def applyPauseFlag (paused : Bool) : EngineCall → Bool
  | .pause => true
  | .unpause => false
  | _ => paused

/-- Modelled from the spec: how each engine call moves the engine's queue
index — `play-next`/`play-previous` advance/retreat with wraparound
(§4.1), `play(i)` jumps to `i`, every other call leaves the index
unchanged. -/
def indexAfter (queueLen : Nat) (index : Nat) : EngineCall → Nat
  | .playNext => (index + 1) % queueLen
  | .playPrevious => if index = 0 then queueLen - 1 else index - 1
  | .play i => i
  | _ => index

/-- `App::slider_seek` (`app.rs` lines 80-92): when a track time is
available and the slider moved, pause the engine, compute the absolute
target as `(dur_secs + dur_frac) * slider_fraction`, seek to it split into
whole seconds (`floor`) and fractional part (`fract`), then unpause —
returned as the engine call trace of one invocation (empty when no track
time is available or the slider did not move). -/
def slider_seek (sliderChanged : Bool) (track_time : Option TrackTime)
    (time : ℚ) : List EngineCall :=
  match track_time with
  | none => []
  | some tt =>
    if sliderChanged then
      let total_time : ℚ := (tt.dur_secs : ℚ) + tt.dur_frac
      let seek_time := total_time * time
      [.pause, .seekTo seek_time.floor.toNat (seek_time - (seek_time.floor : ℚ)),
       .unpause]
    else []

/-- Modelled from the spec: the engine state visible to the
toggle/previous button handlers — a paused flag and a naturally-ended flag
(§4.5 "query current playing/paused/has-ended flags"), plus the queue
index and length. -/
structure EngineState where
  paused : Bool
  ended : Bool
  index : Nat
  queueLen : Nat
deriving DecidableEq, Repr

/-- Modelled from the spec: `is_playing` — the engine reports playing
while the current track has not naturally ended; it is independent of the
paused flag (§4.1: "If resuming finds the engine has naturally ended,
immediately advances via play-next"; state machine `Playing ⇄ Paused`). -/
def is_playing (s : EngineState) : Bool := !s.ended

/-- Modelled from the spec: `pause` sets the engine's paused flag (§4.5). -/
def enginePause (s : EngineState) : EngineState := { s with paused := true }

/-- Modelled from the spec: `unpause` clears the engine's paused flag
(§4.5). -/
def engineUnpause (s : EngineState) : EngineState := { s with paused := false }

/-- Modelled from the spec: `play_next` advances the index with wraparound
(§4.1) and starts the new track playing (not ended, not paused). -/
def enginePlayNext (s : EngineState) : EngineState :=
  { s with index := (s.index + 1) % s.queueLen, ended := false, paused := false }

/-- The toggle button handler (`app.rs` lines 280-292): unpause when the
engine is paused, otherwise pause; afterwards, if the engine is not
playing (the track has naturally ended), advance via `play_next`. -/
def togglePause (s : EngineState) : EngineState :=
  let s1 := if s.paused then engineUnpause s else enginePause s
  if !(is_playing s1) then enginePlayNext s1 else s1

/-- `App::on_exit` (`app.rs` lines 351-354): the engine calls issued on
application exit — a single `end_current`. -/
def on_exit_calls : List EngineCall := [.endCurrent]

/-- The previous button handler (`app.rs` lines 266-279): the engine calls
issued on a click, given the cached track time (nothing happens when no
track time was ever cached).  Below two whole elapsed seconds the current
track is restarted via `seek_to(0, 0.0)`; otherwise the current track is
ended and the player retreats via `play_previous`. -/
def previous_clicked (cached_track_time : Option TrackTime) : List EngineCall :=
  match cached_track_time with
  | none => []
  | some tt =>
    if tt.ts_secs < 2 then [.seekTo 0 0]
    else [.endCurrent, .playPrevious]

/-- `FileTrack` from the crate root as built by `App::init` and persisted
by `App::save`: a track name (without extension) and its duration in whole
seconds. -/
structure FileTrack where
  name : String
  duration : Nat
deriving DecidableEq, Repr

/-- Modelled from the spec: `vec_contains` — whether the saved track list
contains a track with the given name, and the position of the first such
track (the persisted mapping is keyed by track name, §3 "Persisted
Snapshot": "a mapping from track name to previously-computed duration").
Returns `(false, 0)` when the name is absent. -/
def vec_contains (saved_files : List FileTrack) (name : String) :
    Bool × Nat :=
  match saved_files with
  | [] => (false, 0)
  | t :: rest =>
    if t.name = name then (true, 0)
    else
      let r := vec_contains rest name
      (r.fst, if r.fst then r.snd + 1 else r.snd)

/-- The duration-selection loop of `App::init` (`app.rs` lines 173-192):
for each audio file name found in the scanned directory, take the duration
from the saved mapping when `vec_contains` finds the name there
(`saved_files[contains.1].duration`), otherwise probe the engine
(`get_duration_for_track(...).dur_secs`, abstracted as `probe`).  Returns
the built track list together with the list of names that were probed.
(The subsequent `files.sort()` on line 194 only permutes the entries and
touches no duration.) -/
def init_files (saved_files : List FileTrack) (probe : String → Nat) :
    List String → List FileTrack × List String
  | [] => ([], [])
  | name :: rest =>
    let contains := vec_contains saved_files name
    let duration :=
      if contains.fst then (saved_files.getD contains.snd ⟨"", 0⟩).duration
      else probe name
    let r := init_files saved_files probe rest
    (⟨name, duration⟩ :: r.fst,
     (if contains.fst then [] else [name]) ++ r.snd)

/-- The persisted snapshot written by `App::save`
(`app.rs` lines 343-349): folder path, volume, and the track list holding
the durations mapping.  The on-disk text encoding is out of scope (§1:
"on-disk settings persistence format beyond its round-trip contract");
persistence is modelled by that round-trip contract — reloading yields the
same values that were saved. -/
structure PersistedSnapshot where
  path : Option String
  volume : ℚ
  durations : List FileTrack
deriving DecidableEq, Repr

/-- `App::save` (`app.rs` lines 343-349): stores the current folder path,
volume, and the `files` track list. -/
def save (path : Option String) (volume : ℚ) (files : List FileTrack) :
    PersistedSnapshot :=
  { path := path, volume := volume, durations := files }

end NMusic

namespace NMusic

/-- When `vec_contains` reports the name present, the entry it indexes is
the first saved entry with that name. -/
theorem vec_contains_find (l : List FileTrack) (n : String)
    (h : (vec_contains l n).fst = true) :
    l.find? (fun t => t.name = n) =
      some (l.getD (vec_contains l n).snd ⟨"", 0⟩) := by
  induction l with
  | nil => simp [vec_contains] at h
  | cons t rest ih =>
    by_cases ht : t.name = n
    · simp [vec_contains, ht, List.find?]
    · simp only [vec_contains, ht, if_false, if_neg] at h ⊢
      have h2 : (vec_contains rest n).fst = true := h
      simp [List.find?, ht, h2, ih h2]

/-- When `vec_contains` reports the name absent, no saved entry has that
name. -/
theorem vec_contains_absent (l : List FileTrack) (n : String)
    (h : (vec_contains l n).fst = false) :
    l.find? (fun t => t.name = n) = none := by
  induction l with
  | nil => rfl
  | cons t rest ih =>
    by_cases ht : t.name = n
    · simp [vec_contains, ht] at h
    · simp only [vec_contains, ht, if_false, if_neg] at h
      simp [List.find?, ht, ih h]

/-- C2 counterexample: with a single-track queue (`len = 1`) and incoming
`index = 1` (the boundary `index == queue.len()`), the guard in
`MPRISBridge::metadata` leaves the index at 1, which is not `< 1`: the
subsequent `queue[index]` is out of bounds, refuting the claim that the
guard guarantees in-range access for every index and non-empty queue. -/
theorem metadata_guard_boundary_cex :
    metadataGuardIndex 1 1 = 1 ∧ ¬ (metadataGuardIndex 1 1 < 1) := by
  constructor
  · rfl
  · decide

/-- C2 (amended): for every non-empty queue, the guard in
`MPRISBridge::metadata` only ensures the index used is at most `queue.len()`;
the subsequent access is in range exactly when the incoming index differs
from `queue.len()` — at the boundary `index == queue.len()` it goes out of
bounds. -/
theorem metadata_guard_amended (index queueLen : Nat) (h : 0 < queueLen) :
    metadataGuardIndex index queueLen ≤ queueLen ∧
    (metadataGuardIndex index queueLen < queueLen ↔ index ≠ queueLen) := by
  unfold metadataGuardIndex
  by_cases hgt : index > queueLen
  · simp only [hgt, if_pos]
    exact ⟨Nat.le_of_lt hgt |>.trans (le_refl _) |> fun _ => Nat.zero_le _,
      by constructor
         · intro _
           omega
         · intro _
           exact h⟩
  · simp only [hgt, if_neg, not_false_eq_true]
    omega

/-- C2 amended witness: queue of length 2, incoming index 1 (≠ len), the
guarded index is in range. -/
theorem metadata_guard_amended_witness :
    metadataGuardIndex 1 2 ≤ 2 ∧ (metadataGuardIndex 1 2 < 2 ↔ 1 ≠ 2) :=
  metadata_guard_amended 1 2 (by decide)

/-- C1: Change-Diff Broadcaster minimality. On any tick that starts with an
empty staging vector (the loop's invariant — the vector is `mem::take`n
whenever non-empty): if none of the three observed fields differs from its
previously observed value, the tick emits no batch at all (zero properties);
if only the volume differs, the tick emits exactly one batch containing
exactly one property, a `Volume` property carrying the new value.  At most
one batch per tick is inherent in `tick`'s result type: a single optional
batch. -/
theorem diff_broadcaster_minimality (queue : List String)
    (fetch : String → Except String TrackMeta) (image : String → Option String)
    (st : BroadcasterState) (guard : RunnerSnapshot)
    (hprops : st.properties = []) :
    (st.playback = guard.playback ∧ st.volume = guard.volume ∧
        st.index = guard.index →
      tick queue fetch image st guard = some (st, none)) ∧
    (st.playback = guard.playback ∧ st.volume ≠ guard.volume ∧
        st.index = guard.index →
      tick queue fetch image st guard =
        some ({ st with volume := guard.volume, properties := [] },
          some [.Volume guard.volume])) := by
  constructor
  · rintro ⟨h1, h2, h3⟩
    simp [tick, h1, h2, h3, hprops]
  · rintro ⟨h1, h2, h3⟩
    simp [tick, h1, h2, h3, hprops]

/-- C1 witness: concrete no-change tick emits nothing; concrete
volume-only-change tick emits exactly one `Volume` property. -/
theorem diff_broadcaster_minimality_witness :
    tick [] (fun _ => .error "") (fun _ => none) (initState 0)
        ⟨false, 1, 0⟩ = some (initState 0, none) ∧
    tick [] (fun _ => .error "") (fun _ => none) (initState 0)
        ⟨false, 1/2, 0⟩ =
      some ({ initState 0 with volume := 1/2, properties := [] },
        some [.Volume (1/2)]) :=
  ⟨(diff_broadcaster_minimality [] (fun _ => .error "") (fun _ => none)
      (initState 0) ⟨false, 1, 0⟩ rfl).1 ⟨rfl, rfl, rfl⟩,
   (diff_broadcaster_minimality [] (fun _ => .error "") (fun _ => none)
      (initState 0) ⟨false, 1/2, 0⟩ rfl).2 ⟨rfl, by norm_num [initState], rfl⟩⟩

/-- C7: on the Broadcaster's first tick, each field is compared against its
initial baseline — playback against `false`, volume against `1.0`, index
against the Runner's own index read before the loop started — so when the
first observed snapshot `r` is the same Runner state the pre-loop index was
read from, no index (`Metadata`) property is ever staged, playback is
reported iff it differs from `false`, and volume iff it differs from `1`. -/
theorem first_tick_baseline (queue : List String)
    (fetch : String → Except String TrackMeta) (image : String → Option String)
    (r : RunnerSnapshot) :
    tick queue fetch image (initState r.index) r =
      some (⟨r.playback, r.volume, r.index, []⟩,
        let staged :=
          (if r.playback = true then [BusProperty.Playing true] else []) ++
          (if r.volume = 1 then [] else [BusProperty.Volume r.volume])
        if staged.isEmpty then none else some staged) := by
  cases hb : r.playback <;> by_cases hv : r.volume = 1 <;>
    simp [tick, initState, hb, hv, eq_comm]

/-- C3 (code behaviour at the failing input): when the observed index has
changed and `MusicTrack::new` fails for the new current track (a track
decode error), the Broadcaster loop panics through
`.expect("can't get track for currently playing song")` — the tick
evaluates to `none` (thread dead), instead of continuing with a
filename-fallback `Metadata` property as the spec requires. -/
theorem broadcaster_decode_error_panics :
    tick ["a.mp3", "b.mp3"] (fun _ => .error "decode failure")
      (fun _ => none) (initState 0) ⟨false, 1, 1⟩ = none := by
  simp [tick, initState]

/-- C10: the media bridge never reports the `Stopped` playback status —
every property mapped outward by `properties_changed` avoids `Stopped`, and
`playback_status` maps the Runner's boolean flag to exactly `Playing` or
`Paused`. -/
theorem never_stopped_status :
    (∀ p : BusProperty, reportsStopped (toMprisProperty p) = false) ∧
    (∀ b : Bool, playbackStatusOf b = .Playing ∨ playbackStatusOf b = .Paused) := by
  constructor
  · intro p
    cases p with
    | Playing b => cases b <;> rfl
    | Metadata m => rfl
    | Volume v => rfl
  · intro b
    cases b
    · right; rfl
    · left; rfl

/-- C5 counterexample: with the session paused before the seek (engine
paused flag `true`, i.e. not playing), a slider seek still ends with the
engine unpaused — `App::slider_seek` issues `unpause()` unconditionally,
refuting the claim that the engine is resumed only if the session was
playing before the seek began. -/
theorem slider_seek_resume_cex :
    (slider_seek true (some ⟨0, 0, 10, 0⟩) (1/2)).foldl applyPauseFlag true
        = false ∧
    EngineCall.unpause ∈ slider_seek true (some ⟨0, 0, 10, 0⟩) (1/2) := by
  constructor
  · rfl
  · simp [slider_seek]

/-- C5 (amended): for every seek triggered by the position slider while a
track time is available, the engine is first paused, the absolute target is
the slider fraction times the track's total duration, the seek is applied
with that position split into whole seconds (`floor`) and fractional part,
and the engine is then resumed unconditionally — regardless of whether the
session was playing before the seek began. -/
theorem slider_seek_amended (tt : TrackTime) (time : ℚ) (pausedBefore : Bool) :
    slider_seek true (some tt) time =
      [.pause,
       .seekTo (((tt.dur_secs : ℚ) + tt.dur_frac) * time).floor.toNat
         ((((tt.dur_secs : ℚ) + tt.dur_frac) * time) -
           ((((tt.dur_secs : ℚ) + tt.dur_frac) * time).floor : ℚ)),
       .unpause] ∧
    (slider_seek true (some tt) time).foldl applyPauseFlag pausedBefore
        = false :=
  ⟨rfl, rfl⟩

/-- C6: the toggle button pauses when the engine is playing and resumes
when it is paused; if after toggling the engine is not playing (the track
has naturally ended), it immediately advances via `play_next`; and when
the track has not ended, applying toggle twice returns to the original
state — Playing back to Playing, Paused back to Paused. -/
theorem toggle_pause_props (s : EngineState) :
    (s.ended = true →
      togglePause s =
        enginePlayNext (if s.paused then engineUnpause s else enginePause s)) ∧
    (s.ended = false →
      (s.paused = false → togglePause s = enginePause s) ∧
      (s.paused = true → togglePause s = engineUnpause s) ∧
      togglePause (togglePause s) = s) := by
  obtain ⟨p, e, i, q⟩ := s
  cases p <;> cases e <;>
    simp [togglePause, is_playing, enginePause, engineUnpause, enginePlayNext]

/-- C6 witness: from a concrete Playing state (not paused, not ended),
one toggle pauses and a double toggle returns to the original state. -/
theorem toggle_pause_props_witness :
    togglePause (togglePause ⟨false, false, 0, 3⟩)
        = (⟨false, false, 0, 3⟩ : EngineState) ∧
    togglePause (⟨false, false, 0, 3⟩ : EngineState)
        = enginePause ⟨false, false, 0, 3⟩ :=
  ⟨((toggle_pause_props ⟨false, false, 0, 3⟩).2 rfl).2.2,
   ((toggle_pause_props ⟨false, false, 0, 3⟩).2 rfl).1 rfl⟩

/-- C8: on application exit, `App::on_exit` issues exactly one
`end_current` call to the Playback Engine — the whole exit trace is that
single call. -/
theorem on_exit_end_current_once :
    on_exit_calls = [.endCurrent] ∧ on_exit_calls.count .endCurrent = 1 :=
  ⟨rfl, rfl⟩

/-- C9: on a previous-button click with a cached track time, if the
elapsed whole seconds are below 2 the current track is restarted
(`seek_to(0, 0.0)`) and the queue index is unchanged; at 2 seconds or
beyond the current track is ended and the player retreats to the previous
track. -/
theorem previous_restart_threshold (tt : TrackTime) (queueLen index : Nat) :
    (tt.ts_secs < 2 →
      previous_clicked (some tt) = [.seekTo 0 0] ∧
      (previous_clicked (some tt)).foldl (indexAfter queueLen) index
          = index) ∧
    (2 ≤ tt.ts_secs →
      previous_clicked (some tt) = [.endCurrent, .playPrevious] ∧
      (previous_clicked (some tt)).foldl (indexAfter queueLen) index
          = indexAfter queueLen index .playPrevious) := by
  constructor
  · intro h
    simp [previous_clicked, h, indexAfter]
  · intro h
    have h2 : ¬ tt.ts_secs < 2 := by omega
    simp [previous_clicked, h2, indexAfter]

/-- C9 witness: at 1 elapsed second the click restarts the track and keeps
index 2 of a 3-track queue; at 5 elapsed seconds it ends the current track
and retreats. -/
theorem previous_restart_threshold_witness :
    (previous_clicked (some ⟨1, 0, 30, 0⟩) = [.seekTo 0 0] ∧
      (previous_clicked (some ⟨1, 0, 30, 0⟩)).foldl (indexAfter 3) 2 = 2) ∧
    (previous_clicked (some ⟨5, 0, 30, 0⟩) = [.endCurrent, .playPrevious] ∧
      (previous_clicked (some ⟨5, 0, 30, 0⟩)).foldl (indexAfter 3) 2
          = indexAfter 3 2 .playPrevious) :=
  ⟨(previous_restart_threshold ⟨1, 0, 30, 0⟩ 3 2).1 (by decide),
   (previous_restart_threshold ⟨5, 0, 30, 0⟩ 3 2).2 (by decide)⟩

/-- C4: round-trip of the persisted snapshot.  After `App::save` stores
the folder path, volume and track-duration list, a new session's
`App::init` gives every scanned track whose name appears in the saved
mapping the saved duration (the first saved entry with that name —
identical value, not probed), and probes the engine exactly for the names
absent from the mapping. -/
theorem snapshot_round_trip (path : Option String) (volume : ℚ)
    (files : List FileTrack) (probe : String → Nat) (names : List String) :
    (init_files (save path volume files).durations probe names).fst =
      names.map (fun n =>
        { name := n
          duration :=
            match files.find? (fun t => t.name = n) with
            | some t => t.duration
            | none => probe n }) ∧
    (init_files (save path volume files).durations probe names).snd =
      names.filter (fun n => (files.find? (fun t => t.name = n)).isNone) := by
  have hsd : (save path volume files).durations = files := rfl
  rw [hsd]
  induction names with
  | nil => exact ⟨rfl, rfl⟩
  | cons n rest ih =>
    obtain ⟨ih1, ih2⟩ := ih
    cases hvc : (vec_contains files n).fst
    · have hf := vec_contains_absent files n hvc
      refine ⟨?_, ?_⟩
      · simp [init_files, hvc, hf, ih1]
      · simp [init_files, hvc, hf, ih2]
    · have hf := vec_contains_find files n hvc
      refine ⟨?_, ?_⟩
      · simp [init_files, hvc, hf, ih1]
      · simp [init_files, hvc, hf, ih2]

end NMusic
